import Mathlib

/-!
Shallow embedding of the transcoding pipeline of `src/main.c` (a C program
driving a media-codec library).  The codec and container collaborators are
modelled as oracles: each receive loop consumes a script of receive results
(a status and, when the status is nonnegative, the payload the library
filled in), each status that the C code reads from a collaborator call is an
oracle argument, and timestamp rescaling (av_rescale_q, library internals)
is an abstract function parameter.  A status is an `Int`; in the library a
receive call yields 0 on success and a negative code otherwise, with
AVERROR(EAGAIN) and AVERROR_EOF the two non-fatal negatives.  Every
function returns, besides the C return value, a trace of the externally
visible events the claims speak about: diagnostics printed, packets handed
to the container writer, and the submissions made to the decoder and the
encoder (a `none` submission would be the end-of-stream flush,
avcodec_send_packet/avcodec_send_frame with NULL).
-/

namespace VR

/-- AVERROR(EAGAIN) on Linux: -(errno EAGAIN) = -11. -/
def AVERROR_EAGAIN : Int := -11

/-- AVERROR_EOF: FFERRTAG of EOF, a large negative constant. -/
def AVERROR_EOF : Int := -541478725

/-- avformat_write_header status meaning the streams were initialized in
write_header; one of its two documented success values. -/
def AVSTREAM_INIT_IN_WRITE_HEADER : Int := 1

/-- avformat_write_header status meaning the streams were initialized in
avformat_init_output; the other documented success value (0). -/
def AVSTREAM_INIT_IN_INIT_OUTPUT : Int := 0

/-- A time base, AVRational from the library. -/
structure AVRational where
  num : Int
  den : Int
deriving DecidableEq, Repr, Inhabited

/-- av_inv_q: the reciprocal of a rational (swap numerator and denominator). -/
def av_inv_q (q : AVRational) : AVRational := ⟨q.den, q.num⟩

/-- A coded unit (AVPacket): timestamps, owning stream index and payload bytes. -/
structure Packet where
  stream_index : Int
  pts : Int
  dts : Int
  duration : Int
  payload : List Nat
deriving DecidableEq, Repr, Inhabited

/-- A decoded raw frame (AVFrame); its content is opaque to the pipeline. -/
structure Frame where
  id : Nat
deriving DecidableEq, Repr, Inhabited

/-- The slice of AVStream the pipeline reads: its time base. -/
structure AVStreamRec where
  time_base : AVRational
deriving DecidableEq, Repr, Inhabited

/-- One diagnostic line.  print_error writes "description: av_strerror(errnum)",
recorded as `some errnum`; a bare printf diagnostic is recorded as `none`. -/
structure Diag where
  description : String
  errnum : Option Int
deriving DecidableEq, Repr

/-- The externally visible events of a pipeline run: diagnostics, packets
handed to av_interleaved_write_frame, and the submissions to the decoder
(avcodec_send_packet) and encoder (avcodec_send_frame); a `none` submission
is the NULL end-of-stream flush. -/
structure Trace where
  diags : List Diag
  written : List Packet
  decSends : List (Option Packet)
  encSends : List (Option Frame)
deriving DecidableEq, Repr

/-- The empty trace. -/
def Trace.nil : Trace := ⟨[], [], [], []⟩

/-- Concatenation of traces, in temporal order. -/
def Trace.app (a b : Trace) : Trace :=
  ⟨a.diags ++ b.diags, a.written ++ b.written,
   a.decSends ++ b.decSends, a.encSends ++ b.encSends⟩

section Pipeline

variable (rescale : Int → AVRational → AVRational → Int)
variable (writerStatus : Packet → Int)

/-- av_packet_rescale_ts: rebase the packet's pts, dts and duration from
time base src to time base dst (the arithmetic is the library's, abstracted
as `rescale`); every other field, the payload included, is untouched. -/
def av_packet_rescale_ts (p : Packet) (src dst : AVRational) : Packet :=
  { p with
    pts := rescale p.pts src dst
    dts := rescale p.dts src dst
    duration := rescale p.duration src dst }

/-- write_packet (src/main.c:11-23): tag the packet with the mapped output
stream index, rescale its timestamps from the input stream's time base to
the output stream's, hand it to av_interleaved_write_frame; a nonzero write
status is reported and returns -1.  Yields (return value, the packet as
handed to the writer, diagnostics). -/
def write_packet (p : Packet) (in_stream out_stream : AVStreamRec)
    (out_stream_index : Int) : Int × Packet × List Diag :=
  let p1 := { p with stream_index := out_stream_index }
  let p2 := av_packet_rescale_ts rescale p1 in_stream.time_base out_stream.time_base
  let reason := writerStatus p2
  if reason ≠ 0 then (-1, p2, [⟨"Failed to write frame", some reason⟩])
  else (0, p2, [])

/-- The avcodec_receive_packet pull loop of encode_frame_and_send
(src/main.c:33-47).  Each script entry is one receive call: its status and
the packet the library filled in when the status is nonnegative.  `reason`
threads the C variable `reason` (last assigned from avcodec_send_frame or
from write_packet), which line 45 prints on a fatal receive status.
`none` means the script was too short to drive the loop to an exit. -/
def encLoop (in_stream out_stream : AVStreamRec) (out_stream_index : Int)
    (reason : Int) : List (Int × Packet) → Option (Int × Trace)
  | [] => none
  | (status, p) :: rest =>
    if 0 ≤ status then
      match write_packet rescale writerStatus p in_stream out_stream out_stream_index with
      | (wres, handed, wdiags) =>
        if wres ≠ 0 then some (wres, ⟨wdiags, [handed], [], []⟩)
        else
          match encLoop in_stream out_stream out_stream_index wres rest with
          | none => none
          | some (r, tr) => some (r, Trace.app ⟨wdiags, [handed], [], []⟩ tr)
    else
      if status ≠ AVERROR_EOF ∧ status ≠ AVERROR_EAGAIN then
        some (-1, ⟨[⟨"Failed to receive encode packets", some reason⟩], [], [], []⟩)
      else some (0, Trace.nil)

/-- encode_frame_and_send (src/main.c:25-50): submit the frame to the encode
context (recorded as an encoder submission event); a nonzero send status is
reported and returns -1; otherwise drain the encoder with `encLoop`. -/
def encode_frame_and_send (frame : Frame) (sendFrameStatus : Int)
    (encScript : List (Int × Packet)) (in_stream out_stream : AVStreamRec)
    (out_stream_index : Int) : Option (Int × Trace) :=
  if sendFrameStatus ≠ 0 then
    some (-1, ⟨[⟨"Failed to send encode frame", some sendFrameStatus⟩], [], [],
               [some frame]⟩)
  else
    match encLoop rescale writerStatus in_stream out_stream out_stream_index
        sendFrameStatus encScript with
    | none => none
    | some (r, tr) => some (r, Trace.app ⟨[], [], [], [some frame]⟩ tr)

/-- One avcodec_receive_frame result inside transcode's pull loop, together
with the behaviour the encoder will exhibit for the pulled frame: the
avcodec_send_frame status and the avcodec_receive_packet script. -/
structure DecStep where
  status : Int
  frame : Frame
  encSendStatus : Int
  encScript : List (Int × Packet)
deriving DecidableEq, Repr, Inhabited

/-- The avcodec_receive_frame pull loop of transcode (src/main.c:61-71).
For each nonnegative receive status the pulled frame is passed to
encode_frame_and_send and, as at src/main.c:64, the value it returns is
discarded.  `reason` threads the C variable `reason` (assigned only by
avcodec_send_packet before the loop), which line 69 prints on a fatal
receive status. -/
def decLoop (in_stream out_stream : AVStreamRec) (out_stream_index : Int)
    (reason : Int) : List DecStep → Option (Int × Trace)
  | [] => none
  | step :: rest =>
    if 0 ≤ step.status then
      match encode_frame_and_send rescale writerStatus step.frame step.encSendStatus
          step.encScript in_stream out_stream out_stream_index with
      | none => none
      | some (_, etr) =>
        match decLoop in_stream out_stream out_stream_index reason rest with
        | none => none
        | some (r, tr) => some (r, Trace.app etr tr)
    else
      if step.status ≠ AVERROR_EOF ∧ step.status ≠ AVERROR_EAGAIN then
        some (-1, ⟨[⟨"Failed to receive decode frames", some reason⟩], [], [], []⟩)
      else some (0, Trace.nil)

/-- transcode (src/main.c:52-74): submit the coded unit to the decode
context (recorded as a decoder submission event); a nonzero send status is
reported and returns -1; otherwise release the unit and drain the decoder
with `decLoop`. -/
def transcode (p : Packet) (sendPacketStatus : Int) (decScript : List DecStep)
    (in_stream out_stream : AVStreamRec) (out_stream_index : Int) :
    Option (Int × Trace) :=
  if sendPacketStatus ≠ 0 then
    some (-1, ⟨[⟨"Failed to send decode packet", some sendPacketStatus⟩], [],
               [some p], []⟩)
  else
    match decLoop rescale writerStatus in_stream out_stream out_stream_index
        sendPacketStatus decScript with
    | none => none
    | some (r, tr) => some (r, Trace.app ⟨[], [], [some p], []⟩ tr)

/-- Array indexing as the C code performs it, totalized with a default (a
plain recursive getter). -/
def nthD {A : Type} : List A → Nat → A → A
  | [], _, d => d
  | a :: _, 0, _ => a
  | _ :: l, n + 1, d => nthD l n d

/-- One av_read_frame result in write_body's read loop: the coded unit the
demuxer produced, together with the behaviour the decoder will exhibit if
the unit is submitted to it (the avcodec_send_packet status and the
avcodec_receive_frame script).  The read loop ends when av_read_frame
returns a negative status, i.e. when this script is exhausted. -/
structure ReadUnit where
  packet : Packet
  sendPacketStatus : Int
  decScript : List DecStep
deriving DecidableEq, Repr, Inhabited

/-- write_body (src/main.c:76-116): read coded units until the demuxer is
exhausted; a unit whose stream maps to -1 (DROPPED) is released and
skipped; a unit of a stream with an encode codec context goes through
transcode, any other kept unit through write_packet; the first nonzero
reason ends the loop with that result.  `out_stream_indices` is the stream
index map, `outccPresent i` tells whether out_codec_contexts[i] is non-NULL. -/
def write_body (in_streams out_streams : List AVStreamRec)
    (out_stream_indices : List Int) (outccPresent : List Bool) :
    List ReadUnit → Option (Int × Trace)
  | [] => some (0, Trace.nil)
  | u :: rest =>
    let si := u.packet.stream_index.toNat
    if nthD out_stream_indices si (-1) = -1 then
      write_body in_streams out_streams out_stream_indices outccPresent rest
    else
      let in_stream := nthD in_streams si default
      let oi := nthD out_stream_indices si (-1)
      let out_stream := nthD out_streams oi.toNat default
      if nthD outccPresent si false then
        match transcode rescale writerStatus u.packet u.sendPacketStatus
            u.decScript in_stream out_stream oi with
        | none => none
        | some (reason, tr) =>
          if reason ≠ 0 then some (reason, tr)
          else
            match write_body in_streams out_streams out_stream_indices
                outccPresent rest with
            | none => none
            | some (r, tr2) => some (r, Trace.app tr tr2)
      else
        match write_packet rescale writerStatus u.packet in_stream out_stream oi with
        | (wres, handed, wdiags) =>
          if wres ≠ 0 then some (wres, ⟨wdiags, [handed], [], []⟩)
          else
            match write_body in_streams out_streams out_stream_indices
                outccPresent rest with
            | none => none
            | some (r, tr2) => some (r, Trace.app ⟨wdiags, [handed], [], []⟩ tr2)

/-- An event at the output-container boundary: the header write call (with
the status it returned), one interleaved unit write, or the trailer write
call (with its status). -/
inductive OutEvent where
  | header (status : Int)
  | unit (p : Packet)
  | trailer (status : Int)
deriving DecidableEq, Repr

/-- Whether an output event is the header write. -/
def OutEvent.isHeader : OutEvent → Bool
  | .header _ => true
  | _ => false

/-- Whether an output event is the trailer write. -/
def OutEvent.isTrailer : OutEvent → Bool
  | .trailer _ => true
  | _ => false

/-- write_output (src/main.c:118-138): call avformat_write_header and abort
with -1 unless its status is exactly AVSTREAM_INIT_IN_WRITE_HEADER; run
write_body, propagating a nonzero result; then call av_write_trailer and
abort with -1 on a nonzero status.  Besides the result it yields the ordered
output-boundary events and the diagnostics. -/
def write_output (headerStatus trailerStatus : Int)
    (in_streams out_streams : List AVStreamRec) (out_stream_indices : List Int)
    (outccPresent : List Bool) (units : List ReadUnit) :
    Option (Int × List OutEvent × List Diag) :=
  if headerStatus ≠ AVSTREAM_INIT_IN_WRITE_HEADER then
    some (-1, [.header headerStatus],
          [⟨"Failed to write header to output file", some headerStatus⟩])
  else
    match write_body rescale writerStatus in_streams out_streams
        out_stream_indices outccPresent units with
    | none => none
    | some (reason, tr) =>
      let evs := OutEvent.header headerStatus :: tr.written.map OutEvent.unit
      if reason ≠ 0 then some (reason, evs, tr.diags)
      else
        if trailerStatus ≠ 0 then
          some (-1, evs ++ [.trailer trailerStatus],
                tr.diags ++ [⟨"Failed to write trailer", some trailerStatus⟩])
        else some (0, evs ++ [.trailer trailerStatus], tr.diags)

end Pipeline

/-! ## Stream mapping and codec-context creation (create_streams and the
codec context factory).  Codec contexts are tracked by identity: each
avcodec_alloc_context3 success takes a fresh id and records an allocation
event, each avcodec_free_context of a non-NULL context records a release
event.  Collaborator calls are oracles carried per input stream. -/

/-- AVMediaType restricted to what create_streams distinguishes. -/
inductive MediaType where
  | audioK
  | videoK
  | otherK
deriving DecidableEq, Repr, Inhabited

/-- The slice of AVCodecParameters the pipeline reads.  `sar` models the
sample_aspect_ratio field. -/
structure CodecParams where
  codec_type : MediaType
  codec_id : Nat
  width : Int
  height : Int
  sar : AVRational
  pix_fmt : Int
  bit_rate : Int
deriving DecidableEq, Repr, Inhabited

/-- An allocated AVCodecContext: its identity plus the configuration fields
the pipeline reads or writes.  `sar` models the sample_aspect_ratio field. -/
structure CodecCtx where
  id : Nat
  width : Int
  height : Int
  sar : AVRational
  pix_fmt : Int
  bit_rate : Int
  time_base : AVRational
deriving DecidableEq, Repr, Inhabited

/-- Oracles for one create_decode_context call: whether
avcodec_alloc_context3 succeeds, the avcodec_parameters_to_context status
and the avcodec_open2 status. -/
structure CtxOracle where
  allocOk : Bool
  paramsStatus : Int
  openStatus : Int
deriving DecidableEq, Repr, Inhabited

/-- create_decode_context (src/main.c:140-162): allocate a context, import
the input stream's codec parameters into it, open it; on any failure free
what was allocated and return NULL.  Yields (the context or none, the next
fresh id, allocation events, release events, diagnostics). -/
def create_decode_context (o : CtxOracle) (in_parameters : CodecParams)
    (fresh : Nat) : Option CodecCtx × Nat × List Nat × List Nat × List Diag :=
  if ¬ o.allocOk then
    (none, fresh, [], [],
     [⟨"Failed to allocate memory for input in_stream codec context", none⟩])
  else
    if o.paramsStatus ≠ 0 then
      (none, fresh + 1, [fresh], [fresh],
       [⟨"Failed to copy parameters to context", some o.paramsStatus⟩])
    else
      if o.openStatus ≠ 0 then
        (none, fresh + 1, [fresh], [fresh],
         [⟨"Failed to open input codec context", some o.openStatus⟩])
      else
        (some ⟨fresh, in_parameters.width, in_parameters.height,
               in_parameters.sar, in_parameters.pix_fmt,
               in_parameters.bit_rate, ⟨0, 1⟩⟩,
         fresh + 1, [fresh], [], [])

/-- create_encode_context (src/main.c:164-189): allocate a context, copy
width, height, sample aspect ratio, pixel format and bit rate from the
decode context, set the time base to the inverse of the guessed display
frame rate (av_guess_frame_rate, a container-reader oracle), open it
against the fixed target codec; on failure free what was allocated and
return NULL. -/
def create_encode_context (allocOk : Bool) (openStatus : Int) (incc : CodecCtx)
    (frame_rate : AVRational) (fresh : Nat) :
    Option CodecCtx × Nat × List Nat × List Nat × List Diag :=
  if ¬ allocOk then
    (none, fresh, [], [],
     [⟨"Failed to allocate memory for output in_stream codec context", none⟩])
  else
    if openStatus ≠ 0 then
      (none, fresh + 1, [fresh], [fresh],
       [⟨"Failed to open output codec context", some openStatus⟩])
    else
      (some ⟨fresh, incc.width, incc.height, incc.sar, incc.pix_fmt,
             incc.bit_rate, av_inv_q frame_rate⟩,
       fresh + 1, [fresh], [], [])

/-- The collaborator oracles one iteration of create_streams's loop may
consult for its input stream: avcodec_find_decoder availability, the
create_decode_context oracles, the create_encode_context oracles and the
guessed frame rate, avformat_new_stream success, and the statuses of
avcodec_parameters_from_context (video) and avcodec_parameters_copy
(audio). -/
structure StreamOracle where
  decoderAvailable : Bool
  decO : CtxOracle
  encAllocOk : Bool
  encOpenStatus : Int
  frame_rate : AVRational
  newStreamOk : Bool
  paramsFromCtxStatus : Int
  paramsCopyStatus : Int
deriving DecidableEq, Repr, Inhabited

/-- One input stream as create_streams sees it: its codec parameters and
the oracles for the collaborator calls made on its behalf. -/
structure InStream where
  params : CodecParams
  oracle : StreamOracle
deriving DecidableEq, Repr, Inhabited

/-- The mutable state of create_streams's loop: the fresh-id counter, the C
variable stream_count (starts at -1), the out_stream_indices entries written
so far, the in_codec_contexts and out_codec_contexts entries for the
streams handled so far (none models a NULL slot of the calloc'd arrays),
the allocation and release events so far, and the diagnostics. -/
structure CSState where
  fresh : Nat
  stream_count : Int
  indices : List Int
  inCtxs : List (Option CodecCtx)
  outCtxs : List (Option CodecCtx)
  allocs : List Nat
  frees : List Nat
  diags : List Diag
deriving DecidableEq, Repr

/-- The state create_streams starts from. -/
def CSState.init : CSState := ⟨0, -1, [], [], [], [], [], []⟩

/-- The releases performed by create_streams's failure cleanup
(src/main.c:250-255): for each input stream index, free the in context then
the out context; freeing a NULL slot is a no-op. -/
def cleanupFrees (ins outs : List (Option CodecCtx)) : List Nat :=
  (List.zip ins outs).flatMap fun ab =>
    (ab.1.map CodecCtx.id).toList ++ (ab.2.map CodecCtx.id).toList

/-- One iteration of create_streams's loop (src/main.c:194-246) on one
input stream.  Returns whether the iteration completed (false = it jumped
to the failure label) and the state after it; on failure the context slots
this iteration had already filled are recorded so the cleanup can free
them. -/
def processStream (s : InStream) (st : CSState) : Bool × CSState :=
  if s.params.codec_type ≠ .audioK ∧ s.params.codec_type ≠ .videoK then
    (true, { st with
      indices := st.indices ++ [-1]
      inCtxs := st.inCtxs ++ [none]
      outCtxs := st.outCtxs ++ [none] })
  else
    if s.params.codec_type = .videoK then
      if ¬ s.oracle.decoderAvailable then
        (false, { st with
          diags := st.diags ++ [⟨"Failed to find decoder", none⟩]
          inCtxs := st.inCtxs ++ [none]
          outCtxs := st.outCtxs ++ [none] })
      else
        match create_decode_context s.oracle.decO s.params st.fresh with
        | (none, fresh1, al1, fr1, ds1) =>
          (false, { st with
            fresh := fresh1
            allocs := st.allocs ++ al1
            frees := st.frees ++ fr1
            diags := st.diags ++ ds1
            inCtxs := st.inCtxs ++ [none]
            outCtxs := st.outCtxs ++ [none] })
        | (some incc, fresh1, al1, fr1, ds1) =>
          match create_encode_context s.oracle.encAllocOk s.oracle.encOpenStatus
              incc s.oracle.frame_rate fresh1 with
          | (none, fresh2, al2, fr2, ds2) =>
            (false, { st with
              fresh := fresh2
              allocs := st.allocs ++ al1 ++ al2
              frees := st.frees ++ fr1 ++ fr2
              diags := st.diags ++ ds1 ++ ds2
              inCtxs := st.inCtxs ++ [some incc]
              outCtxs := st.outCtxs ++ [none] })
          | (some outcc, fresh2, al2, fr2, ds2) =>
            if ¬ s.oracle.newStreamOk then
              (false, { st with
                fresh := fresh2
                allocs := st.allocs ++ al1 ++ al2
                frees := st.frees ++ fr1 ++ fr2
                diags := st.diags ++ ds1 ++ ds2 ++
                  [⟨"Failed to create output in_stream", none⟩]
                inCtxs := st.inCtxs ++ [some incc]
                outCtxs := st.outCtxs ++ [some outcc] })
            else
              if s.oracle.paramsFromCtxStatus ≠ 0 then
                (false, { st with
                  fresh := fresh2
                  allocs := st.allocs ++ al1 ++ al2
                  frees := st.frees ++ fr1 ++ fr2
                  diags := st.diags ++ ds1 ++ ds2 ++
                    [⟨"Failed to copy codec parameters from codec context to output in_stream\n",
                      some s.oracle.paramsFromCtxStatus⟩]
                  inCtxs := st.inCtxs ++ [some incc]
                  outCtxs := st.outCtxs ++ [some outcc] })
              else
                (true, { st with
                  fresh := fresh2
                  stream_count := st.stream_count + 1
                  indices := st.indices ++ [st.stream_count + 1]
                  allocs := st.allocs ++ al1 ++ al2
                  frees := st.frees ++ fr1 ++ fr2
                  diags := st.diags ++ ds1 ++ ds2
                  inCtxs := st.inCtxs ++ [some incc]
                  outCtxs := st.outCtxs ++ [some outcc] })
    else
      if ¬ s.oracle.newStreamOk then
        (false, { st with
          diags := st.diags ++ [⟨"Failed to create output in_stream", none⟩]
          inCtxs := st.inCtxs ++ [none]
          outCtxs := st.outCtxs ++ [none] })
      else
        if s.oracle.paramsCopyStatus ≠ 0 then
          (false, { st with
            diags := st.diags ++
              [⟨"Failed to copy codec parameters to output in_stream\n",
                some s.oracle.paramsCopyStatus⟩]
            inCtxs := st.inCtxs ++ [none]
            outCtxs := st.outCtxs ++ [none] })
        else
          (true, { st with
            stream_count := st.stream_count + 1
            indices := st.indices ++ [st.stream_count + 1]
            inCtxs := st.inCtxs ++ [none]
            outCtxs := st.outCtxs ++ [none] })

/-- create_streams's loop over the input streams, stopping at the first
iteration that jumps to the failure label. -/
def csLoop : List InStream → CSState → CSState × Bool
  | [], st => (st, true)
  | s :: rest, st =>
    match processStream s st with
    | (true, st1) => csLoop rest st1
    | (false, st1) => (st1, false)

/-- The result of create_streams: its return value, the stream index map as
written, and the allocation, release and diagnostic events. -/
structure CSResult where
  result : Int
  indices : List Int
  allocs : List Nat
  frees : List Nat
  diags : List Diag
deriving DecidableEq, Repr

/-- create_streams (src/main.c:191-256): map every input stream in
ascending index order; non-audio, non-video streams are DROPPED (-1), kept
streams get the next dense output index; video streams additionally get a
decode and an encode codec context.  On any failure, free every codec
context slot and return -1. -/
def create_streams (streams : List InStream) : CSResult :=
  match csLoop streams CSState.init with
  | (st, true) => ⟨0, st.indices, st.allocs, st.frees, st.diags⟩
  | (st, false) =>
    ⟨-1, st.indices, st.allocs, st.frees ++ cleanupFrees st.inCtxs st.outCtxs,
     st.diags⟩

/-- Whether a stream is kept (audio or video), i.e. mapped to an output
index rather than DROPPED. -/
def isKept (s : InStream) : Bool :=
  s.params.codec_type = .audioK ∨ s.params.codec_type = .videoK

/-- The number of kept streams of an input. -/
def keptCount (streams : List InStream) : Nat := (streams.filter isKept).length

/-- Whether one iteration of create_streams's loop completes without
jumping to the failure label, as a function of the stream's oracles. -/
def streamSucceeds (s : InStream) : Bool :=
  match s.params.codec_type with
  | .otherK => true
  | .audioK => s.oracle.newStreamOk && s.oracle.paramsCopyStatus = 0
  | .videoK =>
    s.oracle.decoderAvailable && s.oracle.decO.allocOk &&
    s.oracle.decO.paramsStatus = 0 && s.oracle.decO.openStatus = 0 &&
    s.oracle.encAllocOk && s.oracle.encOpenStatus = 0 &&
    s.oracle.newStreamOk && s.oracle.paramsFromCtxStatus = 0

/-- Whether create_streams's iteration for this stream reaches the
avformat_new_stream or codec-parameter-copy step and fails there (the
failure mode claim C6 quantifies over). -/
def failsAtStreamCreateOrCopy (s : InStream) : Bool :=
  match s.params.codec_type with
  | .otherK => false
  | .audioK => !s.oracle.newStreamOk || !(s.oracle.paramsCopyStatus = 0 : Bool)
  | .videoK =>
    s.oracle.decoderAvailable && s.oracle.decO.allocOk &&
    s.oracle.decO.paramsStatus = 0 && s.oracle.decO.openStatus = 0 &&
    s.oracle.encAllocOk && s.oracle.encOpenStatus = 0 &&
    (!s.oracle.newStreamOk || !(s.oracle.paramsFromCtxStatus = 0 : Bool))

/-! ## Concrete collaborator instances used by witnesses and
counterexamples. -/

/-- A concrete timestamp-rescaling function (identity on the timestamp). -/
def idRescale : Int → AVRational → AVRational → Int := fun t _ _ => t

/-- A concrete container writer that accepts every unit. -/
def okWriter : Packet → Int := fun _ => 0

/-- A concrete coded unit. -/
def pkt0 : Packet := ⟨0, 100, 90, 10, [1, 2, 3]⟩

/-- A concrete input stream record (time base 1/25). -/
def inS0 : AVStreamRec := ⟨⟨1, 25⟩⟩

/-- A concrete output stream record (time base 1/30). -/
def outS0 : AVStreamRec := ⟨⟨1, 30⟩⟩

/-! ## Claim theorems. -/

/-- C8: write_packet changes only the unit's stream index (set to the
mapped output stream index) and its timestamps (rebased from the input
stream's time base to the output stream's time base); the payload bytes of
the unit handed to the output writer are unchanged, and no codec context is
consulted (write_packet takes none). -/
theorem write_packet_passthrough_fidelity
    (rescale : Int → AVRational → AVRational → Int) (writerStatus : Packet → Int)
    (p : Packet) (in_stream out_stream : AVStreamRec) (out_stream_index : Int) :
    (write_packet rescale writerStatus p in_stream out_stream out_stream_index).2.1.payload
        = p.payload ∧
    (write_packet rescale writerStatus p in_stream out_stream out_stream_index).2.1.stream_index
        = out_stream_index ∧
    (write_packet rescale writerStatus p in_stream out_stream out_stream_index).2.1.pts
        = rescale p.pts in_stream.time_base out_stream.time_base ∧
    (write_packet rescale writerStatus p in_stream out_stream out_stream_index).2.1.dts
        = rescale p.dts in_stream.time_base out_stream.time_base ∧
    (write_packet rescale writerStatus p in_stream out_stream out_stream_index).2.1.duration
        = rescale p.duration in_stream.time_base out_stream.time_base := by
  simp only [write_packet, av_packet_rescale_ts]
  split <;> simp

/-- C5: at any iteration of the decoder or encoder pull loop, a negative
receive status that is AVERROR_EOF or AVERROR(EAGAIN) terminates the pull
loop with a success result (0), while any other negative receive status
makes the enclosing operation (encode_frame_and_send, resp. transcode)
return -1. -/
theorem pull_loop_status_classification
    (rescale : Int → AVRational → AVRational → Int) (writerStatus : Packet → Int)
    (s : Int) (p q : Packet) (f fr : Frame) (encRest : List (Int × Packet))
    (es : Int) (esc : List (Int × Packet)) (decRest : List DecStep)
    (in_stream out_stream : AVStreamRec) (out_stream_index : Int)
    (hs : s < 0) :
    Option.map Prod.fst
        (encode_frame_and_send rescale writerStatus f 0 ((s, q) :: encRest)
          in_stream out_stream out_stream_index)
      = some (if s = AVERROR_EOF ∨ s = AVERROR_EAGAIN then 0 else -1) ∧
    Option.map Prod.fst
        (transcode rescale writerStatus p 0 (⟨s, fr, es, esc⟩ :: decRest)
          in_stream out_stream out_stream_index)
      = some (if s = AVERROR_EOF ∨ s = AVERROR_EAGAIN then 0 else -1) := by
  have hns : ¬ (0 ≤ s) := by omega
  by_cases h : s = AVERROR_EOF ∨ s = AVERROR_EAGAIN
  · have hc : ¬ (s ≠ AVERROR_EOF ∧ s ≠ AVERROR_EAGAIN) := by tauto
    simp [encode_frame_and_send, transcode, encLoop, decLoop, hns, hc, h]
  · push_neg at h
    simp [encode_frame_and_send, transcode, encLoop, decLoop, hns, h.1, h.2]

/-- C5 witness: the classification at the concrete fatal status -22. -/
theorem pull_loop_status_classification_witness :
    Option.map Prod.fst
        (encode_frame_and_send idRescale okWriter ⟨7⟩ 0 [(-22, pkt0)]
          inS0 outS0 0)
      = some (if (-22 : Int) = AVERROR_EOF ∨ (-22 : Int) = AVERROR_EAGAIN then 0 else -1) ∧
    Option.map Prod.fst
        (transcode idRescale okWriter pkt0 0 [⟨-22, ⟨7⟩, 0, []⟩]
          inS0 outS0 0)
      = some (if (-22 : Int) = AVERROR_EOF ∨ (-22 : Int) = AVERROR_EAGAIN then 0 else -1) :=
  pull_loop_status_classification idRescale okWriter (-22) pkt0 pkt0 ⟨7⟩ ⟨7⟩ []
    0 [] [] inS0 outS0 0 (by decide)

/-- Whether a trace contains no end-of-stream flush submission: every
decoder and encoder submission carries a real packet or frame (none of them
is the NULL drain signal). -/
def Trace.noFlush (tr : Trace) : Bool :=
  tr.decSends.all Option.isSome && tr.encSends.all Option.isSome

/-- Whether a pipeline run issued no end-of-stream flush submission (an
incomplete script counts vacuously). -/
def runNoFlush : Option (Int × Trace) → Bool
  | none => true
  | some (_, tr) => tr.noFlush

theorem Trace.noFlush_app (a b : Trace) :
    (Trace.app a b).noFlush = (a.noFlush && b.noFlush) := by
  simp [Trace.app, Trace.noFlush, List.all_append, Bool.and_assoc,
    Bool.and_left_comm, Bool.and_comm]

theorem Trace.noFlush_nil : Trace.nil.noFlush = true := by decide

theorem encLoop_noFlush (rescale : Int → AVRational → AVRational → Int)
    (writerStatus : Packet → Int) (in_stream out_stream : AVStreamRec)
    (out_stream_index reason : Int) (script : List (Int × Packet)) :
    runNoFlush (encLoop rescale writerStatus in_stream out_stream
      out_stream_index reason script) = true := by
  induction script generalizing reason with
  | nil => simp [encLoop, runNoFlush]
  | cons hd tl ih =>
    obtain ⟨status, p⟩ := hd
    rcases hw : write_packet rescale writerStatus p in_stream out_stream
        out_stream_index with ⟨wres, handed, wdiags⟩
    by_cases hst : 0 ≤ status
    · by_cases h0 : wres = 0
      · subst h0
        rcases hr : encLoop rescale writerStatus in_stream out_stream
            out_stream_index 0 tl with _ | ⟨r, tr⟩
        · simp [encLoop, hst, hw, hr, runNoFlush]
        · have h2 := ih 0
          rw [hr] at h2
          simp only [runNoFlush] at h2
          have hc : (⟨wdiags, [handed], [], []⟩ : Trace).noFlush = true := by
            simp [Trace.noFlush]
          simp [encLoop, hst, hw, hr, runNoFlush, Trace.noFlush_app, hc, h2]
      · simp [encLoop, hst, hw, h0, runNoFlush, Trace.noFlush]
    · by_cases hc : status ≠ AVERROR_EOF ∧ status ≠ AVERROR_EAGAIN <;>
        simp [encLoop, hst, hc, runNoFlush, Trace.noFlush, Trace.nil]

theorem encode_frame_and_send_noFlush (rescale : Int → AVRational → AVRational → Int)
    (writerStatus : Packet → Int) (frame : Frame) (sendFrameStatus : Int)
    (encScript : List (Int × Packet)) (in_stream out_stream : AVStreamRec)
    (out_stream_index : Int) :
    runNoFlush (encode_frame_and_send rescale writerStatus frame sendFrameStatus
      encScript in_stream out_stream out_stream_index) = true := by
  by_cases hsend : sendFrameStatus ≠ 0
  · simp [encode_frame_and_send, hsend, runNoFlush, Trace.noFlush]
  · rcases hr : encLoop rescale writerStatus in_stream out_stream
        out_stream_index sendFrameStatus encScript with _ | ⟨r, tr⟩
    · simp [encode_frame_and_send, hsend, hr, runNoFlush]
    · have h2 := encLoop_noFlush rescale writerStatus in_stream out_stream
        out_stream_index sendFrameStatus encScript
      rw [hr] at h2
      simp only [runNoFlush] at h2
      have hc : (⟨[], [], [], [some frame]⟩ : Trace).noFlush = true := by
        simp [Trace.noFlush]
      simp [encode_frame_and_send, hsend, hr, runNoFlush, Trace.noFlush_app,
        hc, h2]

theorem decLoop_noFlush (rescale : Int → AVRational → AVRational → Int)
    (writerStatus : Packet → Int) (in_stream out_stream : AVStreamRec)
    (out_stream_index reason : Int) (script : List DecStep) :
    runNoFlush (decLoop rescale writerStatus in_stream out_stream
      out_stream_index reason script) = true := by
  induction script with
  | nil => simp [decLoop, runNoFlush]
  | cons step tl ih =>
    by_cases hst : 0 ≤ step.status
    · rcases hr : encode_frame_and_send rescale writerStatus step.frame
          step.encSendStatus step.encScript in_stream out_stream
          out_stream_index with _ | ⟨r1, etr⟩
      · simp [decLoop, hst, hr, runNoFlush]
      · have he := encode_frame_and_send_noFlush rescale writerStatus step.frame
          step.encSendStatus step.encScript in_stream out_stream out_stream_index
        rw [hr] at he
        simp only [runNoFlush] at he
        rcases hd2 : decLoop rescale writerStatus in_stream out_stream
            out_stream_index reason tl with _ | ⟨r2, tr⟩
        · simp [decLoop, hst, hr, hd2, runNoFlush]
        · have h2 := ih
          rw [hd2] at h2
          simp only [runNoFlush] at h2
          simp [decLoop, hst, hr, hd2, runNoFlush, Trace.noFlush_app, he, h2]
    · by_cases hc : step.status ≠ AVERROR_EOF ∧ step.status ≠ AVERROR_EAGAIN <;>
        simp [decLoop, hst, hc, runNoFlush, Trace.noFlush, Trace.nil]

theorem transcode_noFlush (rescale : Int → AVRational → AVRational → Int)
    (writerStatus : Packet → Int) (p : Packet) (sendPacketStatus : Int)
    (decScript : List DecStep) (in_stream out_stream : AVStreamRec)
    (out_stream_index : Int) :
    runNoFlush (transcode rescale writerStatus p sendPacketStatus decScript
      in_stream out_stream out_stream_index) = true := by
  by_cases hsend : sendPacketStatus ≠ 0
  · simp [transcode, hsend, runNoFlush, Trace.noFlush]
  · rcases hr : decLoop rescale writerStatus in_stream out_stream
        out_stream_index sendPacketStatus decScript with _ | ⟨r, tr⟩
    · simp [transcode, hsend, hr, runNoFlush]
    · have h2 := decLoop_noFlush rescale writerStatus in_stream out_stream
        out_stream_index sendPacketStatus decScript
      rw [hr] at h2
      simp only [runNoFlush] at h2
      have hc : (⟨[], [], [some p], []⟩ : Trace).noFlush = true := by
        simp [Trace.noFlush]
      simp [transcode, hsend, hr, runNoFlush, Trace.noFlush_app, hc, h2]

/-- C2 (code bug): after write_body has consumed every input coded unit it
returns without ever submitting the NULL end-of-stream drain to the decoder
or the encoder: every submission of any write_body run carries a real unit
or frame.  The spec requires a final drain at end of input (and src/main.c
has no avcodec_send_packet(incc, NULL) / avcodec_send_frame(outcc, NULL)
call), so frames buffered inside the codecs at end of input are lost. -/
theorem write_body_issues_no_drain (rescale : Int → AVRational → AVRational → Int)
    (writerStatus : Packet → Int) (in_streams out_streams : List AVStreamRec)
    (out_stream_indices : List Int) (outccPresent : List Bool)
    (units : List ReadUnit) :
    runNoFlush (write_body rescale writerStatus in_streams out_streams
      out_stream_indices outccPresent units) = true := by
  induction units with
  | nil => simp [write_body, runNoFlush, Trace.noFlush, Trace.nil]
  | cons u rest ih =>
    by_cases hdz : nthD out_stream_indices u.packet.stream_index.toNat (-1) = -1
    · simpa only [write_body, hdz, if_pos] using ih
    · by_cases hp : nthD outccPresent u.packet.stream_index.toNat false
      · rcases hr : transcode rescale writerStatus u.packet u.sendPacketStatus
            u.decScript (nthD in_streams u.packet.stream_index.toNat default)
            (nthD out_streams (nthD out_stream_indices
              u.packet.stream_index.toNat (-1)).toNat default)
            (nthD out_stream_indices u.packet.stream_index.toNat (-1))
            with _ | ⟨reason, tr⟩
        · simp [write_body, hdz, hp, hr, runNoFlush]
        · have ht := transcode_noFlush rescale writerStatus u.packet
            u.sendPacketStatus u.decScript
            (nthD in_streams u.packet.stream_index.toNat default)
            (nthD out_streams (nthD out_stream_indices
              u.packet.stream_index.toNat (-1)).toNat default)
            (nthD out_stream_indices u.packet.stream_index.toNat (-1))
          rw [hr] at ht
          simp only [runNoFlush] at ht
          by_cases h0 : reason = 0
          · rcases hb : write_body rescale writerStatus in_streams out_streams
                out_stream_indices outccPresent rest with _ | ⟨r2, tr2⟩
            · simp [write_body, hdz, hp, hr, h0, hb, runNoFlush]
            · have h2 := ih
              rw [hb] at h2
              simp only [runNoFlush] at h2
              simp [write_body, hdz, hp, hr, h0, hb, runNoFlush,
                Trace.noFlush_app, ht, h2]
          · simp [write_body, hdz, hp, hr, h0, runNoFlush, ht]
      · rcases hw : write_packet rescale writerStatus u.packet
            (nthD in_streams u.packet.stream_index.toNat default)
            (nthD out_streams (nthD out_stream_indices
              u.packet.stream_index.toNat (-1)).toNat default)
            (nthD out_stream_indices u.packet.stream_index.toNat (-1))
            with ⟨wres, handed, wdiags⟩
        by_cases h0 : wres = 0
        · subst h0
          rcases hb : write_body rescale writerStatus in_streams out_streams
              out_stream_indices outccPresent rest with _ | ⟨r2, tr2⟩
          · simp [write_body, hdz, hp, hw, hb, runNoFlush]
          · have h2 := ih
            rw [hb] at h2
            simp only [runNoFlush] at h2
            have hc : (⟨wdiags, [handed], [], []⟩ : Trace).noFlush = true := by
              simp [Trace.noFlush]
            simp [write_body, hdz, hp, hw, hb, runNoFlush, Trace.noFlush_app,
              hc, h2]
        · simp [write_body, hdz, hp, hw, h0, runNoFlush, Trace.noFlush]

theorem all_dropLast {α : Type} (p : α → Bool) (l : List α)
    (h : l.all p = true) : l.dropLast.all p = true := by
  rw [List.all_eq_true] at h ⊢
  exact fun x hx => h x (l.dropLast_sublist.subset hx)

theorem getLast?_ne_of_all {α : Type} (p : α → Bool) (l : List α) (a : α)
    (h : l.all p = true) (ha : p a = false) : l.getLast? ≠ some a := by
  intro heq
  have hm : a ∈ l := List.mem_of_mem_getLast? heq
  rw [List.all_eq_true] at h
  simp [h a hm] at ha

/-- C3 counterexample: AVSTREAM_INIT_IN_INIT_OUTPUT (0) is a documented
success status of the header write (library failures are negative), yet
write_output aborts the run on it — returning -1 with no body unit and no
trailer written — so a successful header write can abort the run. -/
theorem write_output_aborts_on_alternate_success_header :
    write_output idRescale okWriter AVSTREAM_INIT_IN_INIT_OUTPUT 0 [] [] [] [] []
      = some (-1, [OutEvent.header 0],
              [⟨"Failed to write header to output file", some 0⟩]) ∧
    0 ≤ AVSTREAM_INIT_IN_INIT_OUTPUT := by decide

/-- C3 amended: write_output writes the header exactly once, before any
body unit; the trailer is written at most once, only as the final output
event, and exactly when the header status is AVSTREAM_INIT_IN_WRITE_HEADER
and the body succeeded; the run succeeds exactly when the header status is
AVSTREAM_INIT_IN_WRITE_HEADER, the body succeeded and the trailer write
returned 0.  In particular a header status other than
AVSTREAM_INIT_IN_WRITE_HEADER aborts the run even when it is the
alternative documented success status AVSTREAM_INIT_IN_INIT_OUTPUT. -/
theorem write_output_header_once_trailer_after_body
    (rescale : Int → AVRational → AVRational → Int) (writerStatus : Packet → Int)
    (hs ts : Int) (in_streams out_streams : List AVStreamRec)
    (out_stream_indices : List Int) (outccPresent : List Bool)
    (units : List ReadUnit) (r : Int) (evs : List OutEvent) (ds : List Diag)
    (h : write_output rescale writerStatus hs ts in_streams out_streams
      out_stream_indices outccPresent units = some (r, evs, ds)) :
    (∃ tl, evs = OutEvent.header hs :: tl ∧
       tl.all (fun e => !e.isHeader) = true) ∧
    (hs ≠ AVSTREAM_INIT_IN_WRITE_HEADER → r = -1 ∧ evs = [OutEvent.header hs]) ∧
    evs.dropLast.all (fun e => !e.isTrailer) = true ∧
    (evs.getLast? = some (OutEvent.trailer ts) ↔
       hs = AVSTREAM_INIT_IN_WRITE_HEADER ∧
       ∃ tr, write_body rescale writerStatus in_streams out_streams
         out_stream_indices outccPresent units = some (0, tr)) ∧
    (r = 0 ↔ hs = AVSTREAM_INIT_IN_WRITE_HEADER ∧ ts = 0 ∧
       ∃ tr, write_body rescale writerStatus in_streams out_streams
         out_stream_indices outccPresent units = some (0, tr)) := by
  by_cases hh : hs ≠ AVSTREAM_INIT_IN_WRITE_HEADER
  · rw [write_output, if_pos hh] at h
    obtain ⟨hr, hevs, _⟩ : r = -1 ∧ evs = [OutEvent.header hs] ∧
        ds = [⟨"Failed to write header to output file", some hs⟩] := by
      have hsymm := h.symm
      simp only [Option.some.injEq, Prod.mk.injEq] at hsymm
      exact ⟨hsymm.1, hsymm.2.1, hsymm.2.2⟩
    subst hr hevs
    refine ⟨⟨[], rfl, rfl⟩, fun _ => ⟨rfl, rfl⟩, by simp, ?_, ?_⟩
    · constructor
      · intro hlast
        simp [List.getLast?] at hlast
      · rintro ⟨h1, -⟩
        exact absurd h1 hh
    · constructor
      · intro h0
        omega
      · rintro ⟨h1, -⟩
        exact absurd h1 hh
  · push_neg at hh
    rw [write_output, if_neg (by simp [hh])] at h
    rcases hb : write_body rescale writerStatus in_streams out_streams
        out_stream_indices outccPresent units with _ | ⟨reason, tr⟩
    · rw [hb] at h
      simp at h
    · simp only [hb] at h
      by_cases h0 : reason ≠ 0
      · rw [if_pos h0] at h
        obtain ⟨hr, hevs, _⟩ : reason = r ∧
            (OutEvent.header hs :: tr.written.map OutEvent.unit) = evs ∧
            tr.diags = ds := by
          simpa only [Option.some.injEq, Prod.mk.injEq] using h
        subst hr hevs
        have hall : (OutEvent.header hs :: tr.written.map OutEvent.unit).all
            (fun e => !e.isTrailer) = true := by
          simp [OutEvent.isTrailer, List.all_map, Function.comp]
        refine ⟨⟨tr.written.map OutEvent.unit, rfl, ?_⟩,
          fun hcon => absurd hh (by simpa using hcon), all_dropLast _ _ hall, ?_, ?_⟩
        · simp [OutEvent.isHeader, List.all_map, Function.comp]
        · constructor
          · intro hlast
            exact absurd hlast
              (getLast?_ne_of_all _ _ _ hall (by simp [OutEvent.isTrailer]))
          · rintro ⟨-, tr2, htr2⟩
            simp only [Option.some.injEq, Prod.mk.injEq] at htr2
            exact absurd htr2.1 h0
        · constructor
          · intro hr0
            exact absurd hr0 h0
          · rintro ⟨-, -, tr2, htr2⟩
            simp only [Option.some.injEq, Prod.mk.injEq] at htr2
            exact htr2.1
      · push_neg at h0
        subst h0
        rw [if_neg (by simp)] at h
        have hsplit : r = (if ts ≠ 0 then -1 else 0) ∧
            evs = (OutEvent.header hs :: tr.written.map OutEvent.unit) ++
              [OutEvent.trailer ts] := by
          by_cases ht : ts ≠ 0
          · rw [if_pos ht] at h
            simp only [Option.some.injEq, Prod.mk.injEq] at h
            simp [if_pos ht, h.1.symm, h.2.1.symm]
          · rw [if_neg ht] at h
            simp only [Option.some.injEq, Prod.mk.injEq] at h
            simp [if_neg ht, h.1.symm, h.2.1.symm]
        obtain ⟨hr, hevs⟩ := hsplit
        subst hr hevs
        refine ⟨⟨tr.written.map OutEvent.unit ++ [OutEvent.trailer ts], by simp, ?_⟩,
          fun hcon => absurd hh (by simpa using hcon), ?_, ?_, ?_⟩
        · simp [OutEvent.isHeader, List.all_map, List.all_append, Function.comp]
        · rw [List.dropLast_concat]
          simp [OutEvent.isTrailer, List.all_map, Function.comp]
        · rw [List.getLast?_concat]
          simp [hh]
        · constructor
          · intro hr0
            have hts : ts = 0 := by
              by_cases ht : ts ≠ 0
              · rw [if_pos ht] at hr0
                omega
              · push_neg at ht
                exact ht
            exact ⟨hh, hts, tr, rfl⟩
          · rintro ⟨-, hts, -⟩
            simp [hts]

/-- C3 witness: the amended theorem applied at the concrete run with a
header status of AVSTREAM_INIT_IN_WRITE_HEADER, an empty unit list and a
trailer status of 0. -/
theorem write_output_header_once_trailer_after_body_witness :
    (∃ tl, ([OutEvent.header AVSTREAM_INIT_IN_WRITE_HEADER, OutEvent.trailer 0] :
        List OutEvent) = OutEvent.header AVSTREAM_INIT_IN_WRITE_HEADER :: tl ∧
       tl.all (fun e => !e.isHeader) = true) ∧
    (AVSTREAM_INIT_IN_WRITE_HEADER ≠ AVSTREAM_INIT_IN_WRITE_HEADER →
       (0 : Int) = -1 ∧ ([OutEvent.header AVSTREAM_INIT_IN_WRITE_HEADER,
         OutEvent.trailer 0] : List OutEvent)
         = [OutEvent.header AVSTREAM_INIT_IN_WRITE_HEADER]) ∧
    ([OutEvent.header AVSTREAM_INIT_IN_WRITE_HEADER, OutEvent.trailer 0] :
      List OutEvent).dropLast.all (fun e => !e.isTrailer) = true ∧
    (([OutEvent.header AVSTREAM_INIT_IN_WRITE_HEADER, OutEvent.trailer 0] :
        List OutEvent).getLast? = some (OutEvent.trailer 0) ↔
       AVSTREAM_INIT_IN_WRITE_HEADER = AVSTREAM_INIT_IN_WRITE_HEADER ∧
       ∃ tr, write_body idRescale okWriter [] [] [] [] [] = some (0, tr)) ∧
    ((0 : Int) = 0 ↔ AVSTREAM_INIT_IN_WRITE_HEADER = AVSTREAM_INIT_IN_WRITE_HEADER ∧
       (0 : Int) = 0 ∧
       ∃ tr, write_body idRescale okWriter [] [] [] [] [] = some (0, tr)) :=
  write_output_header_once_trailer_after_body idRescale okWriter
    AVSTREAM_INIT_IN_WRITE_HEADER 0 [] [] [] [] [] 0
    [OutEvent.header AVSTREAM_INIT_IN_WRITE_HEADER, OutEvent.trailer 0] []
    (by rfl)

/-- C1 (code bug): transcode discards the value encode_frame_and_send
returns (src/main.c:64).  On a run where the decoder yields one frame, the
encoder rejects it with status -22 (the rejection is reported), and the
decoder then drains with AVERROR_EOF, transcode returns 0 — the rejection
is silently swallowed instead of being fatal. -/
theorem transcode_swallows_encoder_rejection :
    transcode idRescale okWriter pkt0 0
        [⟨0, ⟨7⟩, -22, []⟩, ⟨AVERROR_EOF, ⟨7⟩, 0, []⟩] inS0 outS0 0
      = some (0, ⟨[⟨"Failed to send encode frame", some (-22)⟩], [],
                  [some pkt0], [some ⟨7⟩]⟩) := by decide

/-- C7 (code bug): when a decoder frame receive or an encoder packet
receive fails with status -22, the diagnostic decodes the stale variable
`reason` (which holds 0, the status of the preceding successful send) and
not the failing receive status (src/main.c:45 and src/main.c:69). -/
theorem receive_failure_decodes_stale_status :
    transcode idRescale okWriter pkt0 0 [⟨-22, ⟨7⟩, 0, []⟩] inS0 outS0 0
      = some (-1, ⟨[⟨"Failed to receive decode frames", some 0⟩], [],
                   [some pkt0], []⟩) ∧
    encode_frame_and_send idRescale okWriter ⟨7⟩ 0 [(-22, pkt0)] inS0 outS0 0
      = some (-1, ⟨[⟨"Failed to receive encode packets", some 0⟩], [], [],
                   [some ⟨7⟩]⟩) := by decide

/-- C9: a successfully created encode context carries width, height, sample
aspect ratio, pixel format and bit rate copied from the decode context, and
its time base is the inverse of the guessed display frame rate, all set
before the context is opened against the fixed target codec. -/
theorem create_encode_context_copies_parameters (allocOk : Bool)
    (openStatus : Int) (incc : CodecCtx) (frame_rate : AVRational)
    (fresh : Nat) (outcc : CodecCtx)
    (h : (create_encode_context allocOk openStatus incc frame_rate fresh).1
      = some outcc) :
    outcc.width = incc.width ∧ outcc.height = incc.height ∧
    outcc.sar = incc.sar ∧ outcc.pix_fmt = incc.pix_fmt ∧
    outcc.bit_rate = incc.bit_rate ∧ outcc.time_base = av_inv_q frame_rate := by
  rw [create_encode_context] at h
  by_cases h1 : allocOk
  · by_cases h2 : openStatus = 0
    · simp [h1, h2] at h
      simp [← h]
    · simp [h1, h2] at h
  · simp [h1] at h

/-- A concrete decode context used by the C9 witness. -/
def incc0 : CodecCtx := ⟨0, 1920, 1080, ⟨1, 1⟩, 0, 4000000, ⟨0, 1⟩⟩

/-- The encode context the factory builds from `incc0` at frame rate 30/1. -/
def outcc0 : CodecCtx := ⟨1, 1920, 1080, ⟨1, 1⟩, 0, 4000000, ⟨1, 30⟩⟩

/-- C9 witness: the parameter-copy theorem applied at a concrete successful
creation. -/
theorem create_encode_context_copies_parameters_witness :
    outcc0.width = incc0.width ∧ outcc0.height = incc0.height ∧
    outcc0.sar = incc0.sar ∧ outcc0.pix_fmt = incc0.pix_fmt ∧
    outcc0.bit_rate = incc0.bit_rate ∧
    outcc0.time_base = av_inv_q ⟨30, 1⟩ :=
  create_encode_context_copies_parameters true 0 incc0 ⟨30, 1⟩ 1 outcc0 (by rfl)

theorem processStream_fst (s : InStream) (st : CSState) :
    (processStream s st).1 = streamSucceeds s := by
  rcases s with ⟨ps, o⟩
  cases hct : ps.codec_type with
  | otherK => simp [processStream, streamSucceeds, hct]
  | audioK =>
    by_cases hns : o.newStreamOk
    · by_cases hpc : o.paramsCopyStatus = 0 <;>
        simp [processStream, streamSucceeds, hct, hns, hpc]
    · simp [processStream, streamSucceeds, hct, hns]
  | videoK =>
    by_cases hd : o.decoderAvailable
    · by_cases ha : o.decO.allocOk
      · by_cases hp : o.decO.paramsStatus = 0
        · by_cases ho : o.decO.openStatus = 0
          · by_cases hea : o.encAllocOk
            · by_cases heo : o.encOpenStatus = 0
              · by_cases hns : o.newStreamOk
                · by_cases hpf : o.paramsFromCtxStatus = 0 <;>
                    simp [processStream, streamSucceeds, create_decode_context,
                      create_encode_context, hct, hd, ha, hp, ho, hea, heo,
                      hns, hpf]
                · simp [processStream, streamSucceeds, create_decode_context,
                    create_encode_context, hct, hd, ha, hp, ho, hea, heo, hns]
              · simp [processStream, streamSucceeds, create_decode_context,
                  create_encode_context, hct, hd, ha, hp, ho, hea, heo]
            · simp [processStream, streamSucceeds, create_decode_context,
                create_encode_context, hct, hd, ha, hp, ho, hea]
          · simp [processStream, streamSucceeds, create_decode_context,
              hct, hd, ha, hp, ho]
        · simp [processStream, streamSucceeds, create_decode_context,
            hct, hd, ha, hp]
      · simp [processStream, streamSucceeds, create_decode_context, hct, hd, ha]
    · simp [processStream, streamSucceeds, hct, hd]

theorem mcoe_append (l1 l2 : List Nat) :
    ((l1 ++ l2 : List Nat) : Multiset Nat) = ↑l1 + ↑l2 := rfl

theorem cleanupFrees_append (ins outs : List (Option CodecCtx))
    (h : ins.length = outs.length) (a b : Option CodecCtx) :
    cleanupFrees (ins ++ [a]) (outs ++ [b]) =
      cleanupFrees ins outs ++
        ((a.map CodecCtx.id).toList ++ (b.map CodecCtx.id).toList) := by
  unfold cleanupFrees
  rw [List.zip_append h, List.flatMap_append]
  simp

/-- The loop invariant of create_streams: the context tables stay aligned,
the allocation events are exactly the fresh ids handed out so far, and
every allocation is accounted for: either already released or still stored
in a context slot (so the failure cleanup releases exactly it). -/
def stInv (st : CSState) : Prop :=
  st.inCtxs.length = st.outCtxs.length ∧
  st.allocs = List.range st.fresh ∧
  (st.allocs : Multiset Nat) = ↑st.frees + ↑(cleanupFrees st.inCtxs st.outCtxs)

set_option maxRecDepth 4000 in
theorem processStream_inv (s : InStream) (st : CSState) (h : stInv st) :
    stInv (processStream s st).2 := by
  obtain ⟨hlen, hrange, hms⟩ := h
  rcases s with ⟨ps, o⟩
  cases hct : ps.codec_type with
  | otherK =>
    unfold stInv
    refine ⟨?_, ?_, ?_⟩
    · simp [processStream, hct, hlen]
    · simp [processStream, hct, hrange, List.range_succ]
    · simp [processStream, hct, cleanupFrees_append _ _ hlen]
      rw [← Multiset.coe_eq_coe]
      simp only [mcoe_append, ← Multiset.cons_coe, Multiset.coe_singleton,
        Multiset.coe_nil, ← Multiset.singleton_add]
      rw [hms]
      try abel
  | audioK =>
    by_cases hns : o.newStreamOk
    · by_cases hpc : o.paramsCopyStatus = 0
      · unfold stInv
        refine ⟨?_, ?_, ?_⟩
        · simp [processStream, hct, hns, hpc, hlen]
        · simp [processStream, hct, hns, hpc, hrange, List.range_succ]
        · simp [processStream, hct, hns, hpc, cleanupFrees_append _ _ hlen]
          rw [← Multiset.coe_eq_coe]
          simp only [mcoe_append, ← Multiset.cons_coe, Multiset.coe_singleton,
            Multiset.coe_nil, ← Multiset.singleton_add]
          rw [hms]
          try abel
      · unfold stInv
        refine ⟨?_, ?_, ?_⟩
        · simp [processStream, hct, hns, hpc, hlen]
        · simp [processStream, hct, hns, hpc, hrange, List.range_succ]
        · simp [processStream, hct, hns, hpc, cleanupFrees_append _ _ hlen]
          rw [← Multiset.coe_eq_coe]
          simp only [mcoe_append, ← Multiset.cons_coe, Multiset.coe_singleton,
            Multiset.coe_nil, ← Multiset.singleton_add]
          rw [hms]
          try abel
    · unfold stInv
      refine ⟨?_, ?_, ?_⟩
      · simp [processStream, hct, hns, hlen]
      · simp [processStream, hct, hns, hrange, List.range_succ]
      · simp [processStream, hct, hns, cleanupFrees_append _ _ hlen]
        rw [← Multiset.coe_eq_coe]
        simp only [mcoe_append, ← Multiset.cons_coe, Multiset.coe_singleton,
          Multiset.coe_nil, ← Multiset.singleton_add]
        rw [hms]
        try abel
  | videoK =>
    by_cases hd : o.decoderAvailable
    · by_cases ha : o.decO.allocOk
      · by_cases hp : o.decO.paramsStatus = 0
        · by_cases ho : o.decO.openStatus = 0
          · have hdec : create_decode_context o.decO ps st.fresh =
                (some ⟨st.fresh, ps.width, ps.height, ps.sar, ps.pix_fmt,
                       ps.bit_rate, ⟨0, 1⟩⟩, st.fresh + 1, [st.fresh], [], []) := by
              simp [create_decode_context, ha, hp, ho]
            by_cases hea : o.encAllocOk
            · by_cases heo : o.encOpenStatus = 0
              · have henc : create_encode_context o.encAllocOk o.encOpenStatus
                    ⟨st.fresh, ps.width, ps.height, ps.sar, ps.pix_fmt,
                     ps.bit_rate, ⟨0, 1⟩⟩ o.frame_rate (st.fresh + 1) =
                    (some ⟨st.fresh + 1, ps.width, ps.height, ps.sar, ps.pix_fmt,
                           ps.bit_rate, av_inv_q o.frame_rate⟩,
                     st.fresh + 2, [st.fresh + 1], [], []) := by
                  simp [create_encode_context, hea, heo]
                by_cases hns : o.newStreamOk
                · by_cases hpf : o.paramsFromCtxStatus = 0
                  · unfold stInv
                    refine ⟨?_, ?_, ?_⟩
                    · simp [processStream, hct, hd, hdec, henc, hns, hpf, hlen]
                    · simp [processStream, hct, hd, hdec, henc, hns, hpf, hrange, List.range_succ]
                    · simp [processStream, hct, hd, hdec, henc, hns, hpf, cleanupFrees_append _ _ hlen]
                      rw [← Multiset.coe_eq_coe]
                      simp only [mcoe_append, ← Multiset.cons_coe, Multiset.coe_singleton,
                        Multiset.coe_nil, ← Multiset.singleton_add]
                      rw [hms]
                      try abel
                  · unfold stInv
                    refine ⟨?_, ?_, ?_⟩
                    · simp [processStream, hct, hd, hdec, henc, hns, hpf, hlen]
                    · simp [processStream, hct, hd, hdec, henc, hns, hpf, hrange, List.range_succ]
                    · simp [processStream, hct, hd, hdec, henc, hns, hpf, cleanupFrees_append _ _ hlen]
                      rw [← Multiset.coe_eq_coe]
                      simp only [mcoe_append, ← Multiset.cons_coe, Multiset.coe_singleton,
                        Multiset.coe_nil, ← Multiset.singleton_add]
                      rw [hms]
                      try abel
                · unfold stInv
                  refine ⟨?_, ?_, ?_⟩
                  · simp [processStream, hct, hd, hdec, henc, hns, hlen]
                  · simp [processStream, hct, hd, hdec, henc, hns, hrange, List.range_succ]
                  · simp [processStream, hct, hd, hdec, henc, hns, cleanupFrees_append _ _ hlen]
                    rw [← Multiset.coe_eq_coe]
                    simp only [mcoe_append, ← Multiset.cons_coe, Multiset.coe_singleton,
                      Multiset.coe_nil, ← Multiset.singleton_add]
                    rw [hms]
                    try abel
              · have henc : create_encode_context o.encAllocOk o.encOpenStatus
                    ⟨st.fresh, ps.width, ps.height, ps.sar, ps.pix_fmt,
                     ps.bit_rate, ⟨0, 1⟩⟩ o.frame_rate (st.fresh + 1) =
                    (none, st.fresh + 2, [st.fresh + 1], [st.fresh + 1],
                     [⟨"Failed to open output codec context",
                       some o.encOpenStatus⟩]) := by
                  simp [create_encode_context, hea, heo]
                unfold stInv
                refine ⟨?_, ?_, ?_⟩
                · simp [processStream, hct, hd, hdec, henc, hlen]
                · simp [processStream, hct, hd, hdec, henc, hrange, List.range_succ]
                · simp [processStream, hct, hd, hdec, henc, cleanupFrees_append _ _ hlen]
                  rw [← Multiset.coe_eq_coe]
                  simp only [mcoe_append, ← Multiset.cons_coe, Multiset.coe_singleton,
                    Multiset.coe_nil, ← Multiset.singleton_add]
                  rw [hms]
                  try abel
            · have henc : create_encode_context o.encAllocOk o.encOpenStatus
                  ⟨st.fresh, ps.width, ps.height, ps.sar, ps.pix_fmt,
                   ps.bit_rate, ⟨0, 1⟩⟩ o.frame_rate (st.fresh + 1) =
                  (none, st.fresh + 1, [], [],
                   [⟨"Failed to allocate memory for output in_stream codec context",
                     none⟩]) := by
                simp [create_encode_context, hea]
              unfold stInv
              refine ⟨?_, ?_, ?_⟩
              · simp [processStream, hct, hd, hdec, henc, hlen]
              · simp [processStream, hct, hd, hdec, henc, hrange, List.range_succ]
              · simp [processStream, hct, hd, hdec, henc, cleanupFrees_append _ _ hlen]
                rw [← Multiset.coe_eq_coe]
                simp only [mcoe_append, ← Multiset.cons_coe, Multiset.coe_singleton,
                  Multiset.coe_nil, ← Multiset.singleton_add]
                rw [hms]
                try abel
          · have hdec : create_decode_context o.decO ps st.fresh =
                (none, st.fresh + 1, [st.fresh], [st.fresh],
                 [⟨"Failed to open input codec context", some o.decO.openStatus⟩]) := by
              simp [create_decode_context, ha, hp, ho]
            unfold stInv
            refine ⟨?_, ?_, ?_⟩
            · simp [processStream, hct, hd, hdec, hlen]
            · simp [processStream, hct, hd, hdec, hrange, List.range_succ]
            · simp [processStream, hct, hd, hdec, cleanupFrees_append _ _ hlen]
              rw [← Multiset.coe_eq_coe]
              simp only [mcoe_append, ← Multiset.cons_coe, Multiset.coe_singleton,
                Multiset.coe_nil, ← Multiset.singleton_add]
              rw [hms]
              try abel
        · have hdec : create_decode_context o.decO ps st.fresh =
              (none, st.fresh + 1, [st.fresh], [st.fresh],
               [⟨"Failed to copy parameters to context", some o.decO.paramsStatus⟩]) := by
            simp [create_decode_context, ha, hp]
          unfold stInv
          refine ⟨?_, ?_, ?_⟩
          · simp [processStream, hct, hd, hdec, hlen]
          · simp [processStream, hct, hd, hdec, hrange, List.range_succ]
          · simp [processStream, hct, hd, hdec, cleanupFrees_append _ _ hlen]
            rw [← Multiset.coe_eq_coe]
            simp only [mcoe_append, ← Multiset.cons_coe, Multiset.coe_singleton,
              Multiset.coe_nil, ← Multiset.singleton_add]
            rw [hms]
            try abel
      · have hdec : create_decode_context o.decO ps st.fresh =
            (none, st.fresh, [], [],
             [⟨"Failed to allocate memory for input in_stream codec context",
               none⟩]) := by
          simp [create_decode_context, ha]
        unfold stInv
        refine ⟨?_, ?_, ?_⟩
        · simp [processStream, hct, hd, hdec, hlen]
        · simp [processStream, hct, hd, hdec, hrange, List.range_succ]
        · simp [processStream, hct, hd, hdec, cleanupFrees_append _ _ hlen]
          rw [← Multiset.coe_eq_coe]
          simp only [mcoe_append, ← Multiset.cons_coe, Multiset.coe_singleton,
            Multiset.coe_nil, ← Multiset.singleton_add]
          rw [hms]
          try abel
    · unfold stInv
      refine ⟨?_, ?_, ?_⟩
      · simp [processStream, hct, hd, hlen]
      · simp [processStream, hct, hd, hrange, List.range_succ]
      · simp [processStream, hct, hd, cleanupFrees_append _ _ hlen]
        rw [← Multiset.coe_eq_coe]
        simp only [mcoe_append, ← Multiset.cons_coe, Multiset.coe_singleton,
          Multiset.coe_nil, ← Multiset.singleton_add]
        rw [hms]
        try abel
theorem csLoop_inv (streams : List InStream) : ∀ (st : CSState), stInv st →
    stInv (csLoop streams st).1 := by
  induction streams with
  | nil => intro st h; simpa [csLoop] using h
  | cons a rest ih =>
    intro st h
    rcases hp : processStream a st with ⟨flag, st1⟩
    have h1 : stInv st1 := by
      have h2 := processStream_inv a st h
      rw [hp] at h2
      exact h2
    cases flag with
    | false => simpa [csLoop, hp] using h1
    | true =>
      simp only [csLoop, hp]
      exact ih st1 h1

theorem stInv_init : stInv CSState.init := by
  refine ⟨rfl, by simp [CSState.init], ?_⟩
  simp [CSState.init, cleanupFrees]

theorem create_streams_failure_spec (streams : List InStream)
    (h : (csLoop streams CSState.init).2 = false) :
    (create_streams streams).result = -1 ∧
    (create_streams streams).frees.Perm (create_streams streams).allocs ∧
    (create_streams streams).allocs.Nodup := by
  rcases hcs : csLoop streams CSState.init with ⟨st, flag⟩
  rw [hcs] at h
  subst h
  have hinv : stInv st := by
    have h2 := csLoop_inv streams CSState.init stInv_init
    rw [hcs] at h2
    exact h2
  obtain ⟨hlen, hrange, hms⟩ := hinv
  have hres : create_streams streams =
      ⟨-1, st.indices, st.allocs,
       st.frees ++ cleanupFrees st.inCtxs st.outCtxs, st.diags⟩ := by
    simp [create_streams, hcs]
  rw [hres]
  refine ⟨rfl, ?_, ?_⟩
  · have hcoe : ((st.frees ++ cleanupFrees st.inCtxs st.outCtxs : List Nat) :
        Multiset Nat) = ↑st.allocs := by
      rw [mcoe_append, hms]
    exact Multiset.coe_eq_coe.1 hcoe
  · rw [hrange]
    exact List.nodup_range _

theorem csLoop_ok_all (streams : List InStream) : ∀ (st : CSState),
    (csLoop streams st).2 = true → ∀ s ∈ streams, streamSucceeds s = true := by
  induction streams with
  | nil => intro st h s hs; simp at hs
  | cons a rest ih =>
    intro st h s hs
    rcases hp : processStream a st with ⟨flag, st1⟩
    have hf := processStream_fst a st
    rw [hp] at hf
    cases flag with
    | false =>
      simp only [csLoop, hp] at h
      exact absurd h (by simp)
    | true =>
      simp only [csLoop, hp] at h
      rcases List.mem_cons.mp hs with heq | hs2
      · subst heq
        exact hf.symm
      · exact ih st1 h s hs2

theorem csLoop_append_fails (pre : List InStream) : ∀ (st : CSState)
    (bad : InStream) (rest : List InStream),
    (∀ s ∈ pre, streamSucceeds s = true) → streamSucceeds bad = false →
    (csLoop (pre ++ bad :: rest) st).2 = false := by
  induction pre with
  | nil =>
    intro st bad rest hpre hbad
    rcases hp : processStream bad st with ⟨flag, st1⟩
    have hf := processStream_fst bad st
    rw [hp, hbad] at hf
    subst hf
    simp [csLoop, hp]
  | cons a pre ih =>
    intro st bad rest hpre hbad
    rcases hp : processStream a st with ⟨flag, st1⟩
    have hf := processStream_fst a st
    rw [hp, hpre a (by simp)] at hf
    subst hf
    simp only [List.cons_append, csLoop, hp]
    exact ih st1 bad rest (fun s hs => hpre s (by simp [hs])) hbad

theorem failsAt_not_succeeds (s : InStream)
    (h : failsAtStreamCreateOrCopy s = true) : streamSucceeds s = false := by
  rcases s with ⟨ps, o⟩
  cases hct : ps.codec_type with
  | otherK => simp [failsAtStreamCreateOrCopy, hct] at h
  | audioK =>
    simp [failsAtStreamCreateOrCopy, hct] at h
    simp only [streamSucceeds, hct]
    rcases h with h | h <;> simp [h]
  | videoK =>
    simp [failsAtStreamCreateOrCopy, hct] at h
    simp only [streamSucceeds, hct]
    obtain ⟨-, hdisj⟩ := h
    rcases hdisj with h | h <;> simp [h]

/-- The stream index map entries create_streams writes when every iteration
succeeds, starting from C variable stream_count = c. -/
def assignIndices (c : Int) : List InStream → List Int
  | [] => []
  | s :: rest =>
    if s.params.codec_type = .otherK then -1 :: assignIndices c rest
    else (c + 1) :: assignIndices (c + 1) rest

theorem assignIndices_cons_other (a : InStream) (rest : List InStream)
    (c : Int) (h : a.params.codec_type = .otherK) :
    assignIndices c (a :: rest) = -1 :: assignIndices c rest := by
  rw [assignIndices, if_pos h]

theorem assignIndices_cons_kept (a : InStream) (rest : List InStream)
    (c : Int) (h : ¬ a.params.codec_type = .otherK) :
    assignIndices c (a :: rest) = (c + 1) :: assignIndices (c + 1) rest := by
  rw [assignIndices, if_neg h]

theorem processStream_true_state (s : InStream) (st : CSState)
    (h : streamSucceeds s = true) :
    (processStream s st).2.indices = st.indices ++
      [if s.params.codec_type = .otherK then -1 else st.stream_count + 1] ∧
    (processStream s st).2.stream_count =
      (if s.params.codec_type = .otherK then st.stream_count
       else st.stream_count + 1) := by
  rcases s with ⟨ps, o⟩
  cases hct : ps.codec_type with
  | otherK => simp [processStream, hct]
  | audioK =>
    simp only [streamSucceeds, hct, Bool.and_eq_true, decide_eq_true_eq] at h
    obtain ⟨hns, hpc⟩ := h
    simp [processStream, hct, hns, hpc]
  | videoK =>
    simp only [streamSucceeds, hct, Bool.and_eq_true, decide_eq_true_eq] at h
    obtain ⟨⟨⟨⟨⟨⟨⟨hd, ha⟩, hp⟩, ho⟩, hea⟩, heo⟩, hns⟩, hpf⟩ := h
    have hdec : create_decode_context o.decO ps st.fresh =
        (some ⟨st.fresh, ps.width, ps.height, ps.sar, ps.pix_fmt,
               ps.bit_rate, ⟨0, 1⟩⟩, st.fresh + 1, [st.fresh], [], []) := by
      simp [create_decode_context, ha, hp, ho]
    have henc : create_encode_context o.encAllocOk o.encOpenStatus
        ⟨st.fresh, ps.width, ps.height, ps.sar, ps.pix_fmt,
         ps.bit_rate, ⟨0, 1⟩⟩ o.frame_rate (st.fresh + 1) =
        (some ⟨st.fresh + 1, ps.width, ps.height, ps.sar, ps.pix_fmt,
               ps.bit_rate, av_inv_q o.frame_rate⟩,
         st.fresh + 2, [st.fresh + 1], [], []) := by
      simp [create_encode_context, hea, heo]
    simp [processStream, hct, hd, hdec, henc, hns, hpf]

theorem csLoop_ok_indices (streams : List InStream) : ∀ (st : CSState),
    (csLoop streams st).2 = true →
    (csLoop streams st).1.indices =
      st.indices ++ assignIndices st.stream_count streams := by
  induction streams with
  | nil => intro st h; simp [csLoop, assignIndices]
  | cons a rest ih =>
    intro st h
    rcases hp : processStream a st with ⟨flag, st1⟩
    have hf := processStream_fst a st
    rw [hp] at hf
    cases flag with
    | false =>
      simp only [csLoop, hp] at h
      exact absurd h (by simp)
    | true =>
      simp only [csLoop, hp] at h ⊢
      have hstate := processStream_true_state a st hf.symm
      rw [hp] at hstate
      obtain ⟨hidx, hcnt⟩ := hstate
      rw [ih st1 h, hidx, hcnt]
      by_cases hother : a.params.codec_type = .otherK
      · rw [assignIndices_cons_other a rest st.stream_count hother]
        simp [hother]
      · rw [assignIndices_cons_kept a rest st.stream_count hother]
        simp [hother]

theorem assignIndices_length (ss : List InStream) :
    ∀ c, (assignIndices c ss).length = ss.length := by
  induction ss with
  | nil => intro c; simp [assignIndices]
  | cons a rest ih =>
    intro c
    by_cases hother : a.params.codec_type = .otherK
    · rw [assignIndices_cons_other a rest c hother]
      simp [ih]
    · rw [assignIndices_cons_kept a rest c hother]
      simp [ih]

theorem assignIndices_filter (ss : List InStream) : ∀ (c : Int), -1 ≤ c →
    (assignIndices c ss).filter (fun x => x ≠ -1) =
      (List.range (keptCount ss)).map (fun (j : Nat) => c + 1 + (j : Int)) := by
  induction ss with
  | nil => intro c hc; simp [assignIndices, keptCount]
  | cons a rest ih =>
    intro c hc
    by_cases hother : a.params.codec_type = .otherK
    · have hk : isKept a = false := by simp [isKept, hother]
      have hkc : keptCount (a :: rest) = keptCount rest := by
        simp [keptCount, List.filter_cons, hk]
      rw [assignIndices_cons_other a rest c hother, List.filter_cons,
        if_neg (by simp), hkc, ih c hc]
    · have hk : isKept a = true := by
        cases hct : a.params.codec_type <;> simp [isKept, hct] <;>
          exact absurd hct hother
      have hne : (c + 1 : Int) ≠ -1 := by omega
      have hkc : keptCount (a :: rest) = keptCount rest + 1 := by
        simp [keptCount, List.filter_cons, hk]
      rw [assignIndices_cons_kept a rest c hother, List.filter_cons,
        if_pos (by simpa using hne), ih (c + 1) (by omega), hkc,
        List.range_succ_eq_map, List.map_cons, List.map_map]
      congr 1
      · simp
      · apply List.map_congr_left
        intro j hj
        simp only [Function.comp]
        push_cast
        ring

theorem assignIndices_dropped (ss : List InStream) : ∀ (c : Int), -1 ≤ c →
    ∀ j, j < ss.length →
    ((assignIndices c ss).getD j 0 = -1 ↔
      (ss.getD j default).params.codec_type = .otherK) := by
  induction ss with
  | nil => intro c hc j hj; simp at hj
  | cons a rest ih =>
    intro c hc j hj
    by_cases hother : a.params.codec_type = .otherK
    · rw [assignIndices_cons_other a rest c hother]
      cases j with
      | zero => simp [hother]
      | succ j =>
        simp only [List.getD_cons_succ]
        exact ih c hc j (by simpa using hj)
    · rw [assignIndices_cons_kept a rest c hother]
      cases j with
      | zero =>
        simp [hother]
        omega
      | succ j =>
        simp only [List.getD_cons_succ]
        exact ih (c + 1) (by omega) j (by simpa using hj)

/-- C4: when create_streams succeeds, the set of non-DROPPED entries of the
stream index map is exactly {0 … k-1} for k the number of kept (audio or
video) streams, assigned densely in ascending input-index order starting at
0; the map has one entry per input stream; and an entry is DROPPED (-1)
exactly when its stream is neither audio nor video. -/
theorem create_streams_dense_mapping (streams : List InStream)
    (h : (create_streams streams).result = 0) :
    (create_streams streams).indices.filter (fun x => x ≠ -1) =
      (List.range (keptCount streams)).map (fun (j : Nat) => (j : Int)) ∧
    (create_streams streams).indices.length = streams.length ∧
    ∀ j, j < streams.length →
      ((create_streams streams).indices.getD j 0 = -1 ↔
        (streams.getD j default).params.codec_type = .otherK) := by
  rcases hcs : csLoop streams CSState.init with ⟨st, flag⟩
  cases flag with
  | false =>
    have : create_streams streams =
        ⟨-1, st.indices, st.allocs,
         st.frees ++ cleanupFrees st.inCtxs st.outCtxs, st.diags⟩ := by
      simp [create_streams, hcs]
    rw [this] at h
    simp at h
  | true =>
    have hidx : st.indices = assignIndices (-1) streams := by
      have h2 := csLoop_ok_indices streams CSState.init (by rw [hcs])
      rw [hcs] at h2
      simpa [CSState.init] using h2
    have hres : create_streams streams =
        ⟨0, st.indices, st.allocs, st.frees, st.diags⟩ := by
      simp [create_streams, hcs]
    rw [hres]
    simp only
    rw [hidx]
    refine ⟨?_, assignIndices_length streams (-1),
      fun j hj => assignIndices_dropped streams (-1) (by omega) j hj⟩
    rw [assignIndices_filter streams (-1) (by omega)]
    apply List.map_congr_left
    intro j hj
    omega

/-- A video input stream whose collaborator calls all succeed. -/
def gvStream : InStream :=
  ⟨⟨.videoK, 27, 1920, 1080, ⟨1, 1⟩, 0, 4000000⟩,
   ⟨true, ⟨true, 0, 0⟩, true, 0, ⟨30, 1⟩, true, 0, 0⟩⟩

/-- An audio input stream whose collaborator calls all succeed. -/
def gaStream : InStream :=
  ⟨⟨.audioK, 86018, 0, 0, ⟨0, 1⟩, 0, 128000⟩,
   ⟨true, ⟨true, 0, 0⟩, true, 0, ⟨0, 1⟩, true, 0, 0⟩⟩

/-- A data stream (neither audio nor video): always DROPPED. -/
def dataStream : InStream :=
  ⟨⟨.otherK, 94208, 0, 0, ⟨0, 1⟩, 0, 0⟩,
   ⟨true, ⟨true, 0, 0⟩, true, 0, ⟨0, 1⟩, true, 0, 0⟩⟩

/-- A video stream whose codec contexts succeed but whose
avformat_new_stream call fails. -/
def nsFailVideo : InStream :=
  ⟨⟨.videoK, 27, 1920, 1080, ⟨1, 1⟩, 0, 4000000⟩,
   ⟨true, ⟨true, 0, 0⟩, true, 0, ⟨30, 1⟩, false, 0, 0⟩⟩

/-- A video stream whose codec id has no available decoder. -/
def noDecVideo : InStream :=
  ⟨⟨.videoK, 31, 1920, 1080, ⟨1, 1⟩, 0, 4000000⟩,
   ⟨false, ⟨true, 0, 0⟩, true, 0, ⟨30, 1⟩, true, 0, 0⟩⟩

/-- C4 witness: the density theorem applied at a concrete three-stream
input (data, video, audio) whose mapping is [-1, 0, 1]. -/
theorem create_streams_dense_mapping_witness :
    (create_streams [dataStream, gvStream, gaStream]).indices.filter
        (fun x => x ≠ -1) =
      (List.range (keptCount [dataStream, gvStream, gaStream])).map
        (fun (j : Nat) => (j : Int)) ∧
    (create_streams [dataStream, gvStream, gaStream]).indices.length =
      ([dataStream, gvStream, gaStream] : List InStream).length ∧
    ∀ j, j < ([dataStream, gvStream, gaStream] : List InStream).length →
      ((create_streams [dataStream, gvStream, gaStream]).indices.getD j 0 = -1 ↔
        (([dataStream, gvStream, gaStream] : List InStream).getD
          j default).params.codec_type = .otherK) :=
  create_streams_dense_mapping [dataStream, gvStream, gaStream] (by decide)

/-- C6: if, after a prefix of fully successful streams, the iteration for
the next stream reaches the avformat_new_stream or codec-parameter-copy
step and fails there, create_streams returns -1 and the codec contexts
allocated so far in the run are each released exactly once (the multiset of
releases equals the multiset of allocations, and no id was allocated
twice). -/
theorem create_streams_releases_contexts_on_failure (pre : List InStream)
    (bad : InStream) (rest : List InStream)
    (hpre : ∀ s ∈ pre, streamSucceeds s = true)
    (hbad : failsAtStreamCreateOrCopy bad = true) :
    (create_streams (pre ++ bad :: rest)).result = -1 ∧
    (create_streams (pre ++ bad :: rest)).frees.Perm
      (create_streams (pre ++ bad :: rest)).allocs ∧
    (create_streams (pre ++ bad :: rest)).allocs.Nodup :=
  create_streams_failure_spec (pre ++ bad :: rest)
    (csLoop_append_fails pre CSState.init bad rest hpre
      (failsAt_not_succeeds bad hbad))

/-- C6 witness: the release theorem applied after one fully successful
video stream (two contexts allocated) followed by a video stream whose
avformat_new_stream call fails: all four contexts are released. -/
theorem create_streams_releases_contexts_on_failure_witness :
    (create_streams ([gvStream] ++ nsFailVideo :: [])).result = -1 ∧
    (create_streams ([gvStream] ++ nsFailVideo :: [])).frees.Perm
      (create_streams ([gvStream] ++ nsFailVideo :: [])).allocs ∧
    (create_streams ([gvStream] ++ nsFailVideo :: [])).allocs.Nodup :=
  create_streams_releases_contexts_on_failure [gvStream] nsFailVideo []
    (by decide) (by decide)

/-- C10: an input containing a video stream whose codec id has no available
decoder makes create_streams fail (the stream is not dropped or copied
through), and every codec context allocated for other streams is released
exactly once before the error propagates. -/
theorem missing_decoder_fails_run (streams : List InStream) (s : InStream)
    (hs : s ∈ streams) (hv : s.params.codec_type = .videoK)
    (hd : s.oracle.decoderAvailable = false) :
    (create_streams streams).result = -1 ∧
    (create_streams streams).frees.Perm (create_streams streams).allocs ∧
    (create_streams streams).allocs.Nodup := by
  have hns : streamSucceeds s = false := by
    simp [streamSucceeds, hv, hd]
  have hflag : (csLoop streams CSState.init).2 = false := by
    rcases hcs : csLoop streams CSState.init with ⟨st, flag⟩
    cases flag with
    | false => rfl
    | true =>
      exfalso
      have h2 := csLoop_ok_all streams CSState.init (by rw [hcs]) s hs
      rw [hns] at h2
      exact absurd h2 (by simp)
  exact create_streams_failure_spec streams hflag

/-- C10 witness: the theorem applied at a concrete input of one good audio
stream followed by a video stream with no decoder. -/
theorem missing_decoder_fails_run_witness :
    (create_streams [gaStream, noDecVideo]).result = -1 ∧
    (create_streams [gaStream, noDecVideo]).frees.Perm
      (create_streams [gaStream, noDecVideo]).allocs ∧
    (create_streams [gaStream, noDecVideo]).allocs.Nodup :=
  missing_decoder_fails_run [gaStream, noDecVideo] noDecVideo
    (by simp) (by decide) (by decide)

end VR
